import Mathlib

/-!
Verification development for the sqlift schema IR and code-generation
pipeline.  The Rust sources are shallowly embedded: Rust `String`/`&str`
values are modelled as `List Char`, machine integers as `Nat`, fallible
slicing (a Rust panic) as `Except Unit`, and the file-system and template
boundaries as explicit oracle records.  ASCII caveat: `Char.toLower`,
`Char.toUpper` and `Char.isWhitespace` model Rust's `char` case folding and
`char::is_whitespace` on the ASCII range, which covers every character the
embedded code inspects.
-/

deriving instance DecidableEq for Except

/-- Characters of a string literal, the `List Char` spelling used throughout. -/
def str (s : String) : List Char := s.data

/-- Model of Rust `str::trim`: drop leading and trailing whitespace. -/
def rsTrim (s : List Char) : List Char :=
  ((s.dropWhile Char.isWhitespace).reverse.dropWhile Char.isWhitespace).reverse

/-- Model of Rust `str::contains` for a substring `needle`. -/
def containsSub (needle : List Char) : List Char → Bool
  | [] => needle.isEmpty
  | c :: rest => needle.isPrefixOf (c :: rest) || containsSub needle rest

/-! ## Schema IR (src/schema.rs) -/

/-- `DataType` from src/schema.rs: the closed variant set of semantic types. -/
inductive DataType where
  | SmallInt
  | Integer
  | BigInt
  | Boolean
  | Text
  | Varchar (length : Option Nat)
  | Char (length : Option Nat)
  | Real
  | DoublePrecision
  | Numeric
  | Timestamp
  | TimestampTz
  | Date
  | Time
  | TimeTz
  | Uuid
  | Json
  | JsonBinary
  | Binary
  | Array (inner : DataType)
  | Enum (name : List Char)
deriving DecidableEq

/-- `Column` from src/schema.rs. -/
structure Column where
  name : List Char
  data_type : DataType
  is_nullable : Bool
  has_default : Bool
  is_auto_generated : Bool
deriving DecidableEq

/-- `Table` from src/schema.rs. -/
structure Table where
  name : List Char
  columns : List Column
  primary_key : List (List Char)
deriving DecidableEq

/-- `EnumType` from src/schema.rs. -/
structure EnumType where
  name : List Char
  values : List (List Char)
deriving DecidableEq

/-- `Schema` from src/schema.rs. -/
structure Schema where
  name : List Char
  tables : List Table
  enums : List EnumType
deriving DecidableEq

/-- `Table::class_name` (src/schema.rs): split the table name on `'_'`,
upper-case the first character of each segment, concatenate.  The body
duplicates `to_pascal_case` exactly as the Rust source does. -/
def Table.class_name (t : Table) : List Char :=
  ((t.name.splitOn '_').map (fun word =>
    match word with
    | [] => []
    | c :: rest => c.toUpper :: rest)).flatten

/-- `to_pascal_case` (src/schema.rs), the shared naming utility. -/
def to_pascal_case (s : List Char) : List Char :=
  ((s.splitOn '_').map (fun word =>
    match word with
    | [] => []
    | c :: rest => c.toUpper :: rest)).flatten

/-- `Table::singular_class_name` (src/schema.rs): basic singularization. -/
def Table.singular_class_name (t : Table) : List Char :=
  let cn := t.class_name
  if (str "ies").isSuffixOf cn then
    cn.take (cn.length - 3) ++ str "y"
  else if [ 's' ].isSuffixOf cn && !((str "ss").isSuffixOf cn) then
    cn.take (cn.length - 1)
  else cn

/-- `Table::singular_name` (src/schema.rs): same heuristic on the raw name. -/
def Table.singular_name (t : Table) : List Char :=
  let n := t.name
  if (str "ies").isSuffixOf n then
    n.take (n.length - 3) ++ str "y"
  else if [ 's' ].isSuffixOf n && !((str "ss").isSuffixOf n) then
    n.take (n.length - 1)
  else n

/-- `Table::has_auto_generated_pk` (src/schema.rs): any primary-key name whose
first matching column (Rust `Iterator::find`) is auto-generated;
`unwrap_or(false)` when no column matches. -/
def Table.has_auto_generated_pk (t : Table) : Bool :=
  t.primary_key.any (fun pk_name =>
    (Option.map Column.is_auto_generated
      (t.columns.find? (fun col => col.name == pk_name))).getD false)

/-- `Table::primary_key_columns` (src/schema.rs): resolve names in key order,
dropping names with no matching column (`filter_map` + `find`). -/
def Table.primary_key_columns (t : Table) : List Column :=
  t.primary_key.filterMap (fun pk_name =>
    t.columns.find? (fun col => col.name == pk_name))

/-- `Table::insert_columns` (src/schema.rs): filter out auto-generated and
defaulted columns, then `sort_by_key(|col| col.is_nullable)`.  Rust's
`sort_by_key` is a stable sort; `List.mergeSort` is Lean's stable sort, and
the comparison is `≤` on the `Bool` key (`false < true`). -/
def Table.insert_columns (t : Table) : List Column :=
  (t.columns.filter (fun col => !col.is_auto_generated && !col.has_default)).mergeSort
    (fun a b => !a.is_nullable || b.is_nullable)

/-- `Table::non_pk_columns` (src/schema.rs). -/
def Table.non_pk_columns (t : Table) : List Column :=
  t.columns.filter (fun col => !(t.primary_key.contains col.name))

/-! ## Type mapper (src/introspect/postgres.rs) -/

/-- Model of Rust `str::parse::<u32>().ok()`: optional leading `'+'`, then one
or more ASCII digits, rejecting values above `u32::MAX`. -/
def parseU32 (s : List Char) : Option Nat :=
  let t := match s with
    | '+' :: rest => rest
    | _ => s
  if t.isEmpty then none
  else if t.all Char.isDigit then
    let v := t.foldl (fun acc c => acc * 10 + (c.toNat - 48)) 0
    if v ≤ 4294967295 then some v else none
  else none

/-- `extract_length` (src/introspect/postgres.rs): take the slice between the
first `'('` and the first `')'`, split at the first `','`, trim and parse.
The Rust slice `type_str[start + 1..end]` panics when `end < start + 1`
(a `')'` occurring before the first `'('`): that is the `Except.error` case. -/
def extract_length (type_str : List Char) : Except Unit (Option Nat) :=
  match List.findIdx? (fun c => c == '(') type_str,
        List.findIdx? (fun c => c == ')') type_str with
  | some start, some stop =>
      if start + 1 ≤ stop then
        let len_str := (type_str.drop (start + 1)).take (stop - (start + 1))
        let first_num := len_str.takeWhile (fun c => c != ',')
        Except.ok (parseU32 (rsTrim first_num))
      else Except.error ()
  | _, _ => Except.ok none

/-- The exact-match arm of `parse_data_type` (the final Rust `match`). -/
def simpleLookup (trimmed : List Char) : Option DataType :=
  if trimmed == str "smallint" || trimmed == str "int2" then some DataType.SmallInt
  else if trimmed == str "integer" || trimmed == str "int" || trimmed == str "int4" then
    some DataType.Integer
  else if trimmed == str "bigint" || trimmed == str "int8" then some DataType.BigInt
  else if trimmed == str "boolean" || trimmed == str "bool" then some DataType.Boolean
  else if trimmed == str "text" then some DataType.Text
  else if trimmed == str "real" || trimmed == str "float4" then some DataType.Real
  else if trimmed == str "double precision" || trimmed == str "float8" then
    some DataType.DoublePrecision
  else if trimmed == str "date" then some DataType.Date
  else if trimmed == str "uuid" then some DataType.Uuid
  else if trimmed == str "json" then some DataType.Json
  else if trimmed == str "jsonb" then some DataType.JsonBinary
  else if trimmed == str "bytea" then some DataType.Binary
  else if trimmed == str "timetz" then some DataType.TimeTz
  else if trimmed == str "timestamptz" then some DataType.TimestampTz
  else none

/-- The non-array rules of `parse_data_type` (src/introspect/postgres.rs),
applied to the original argument `type_str` and its trimmed lower-casing. -/
def parseBase (type_str trimmed : List Char) : Except Unit DataType :=
  if (str "character varying").isPrefixOf trimmed || (str "varchar").isPrefixOf trimmed then
    Except.map DataType.Varchar (extract_length trimmed)
  else if (str "character(").isPrefixOf trimmed || (str "char(").isPrefixOf trimmed then
    Except.map DataType.Char (extract_length trimmed)
  else if (str "numeric").isPrefixOf trimmed || (str "decimal").isPrefixOf trimmed then
    Except.ok DataType.Numeric
  else if (str "timestamp").isPrefixOf trimmed then
    if containsSub (str "with time zone") trimmed
        || containsSub (str "timestamptz") trimmed then
      Except.ok DataType.TimestampTz
    else
      Except.ok DataType.Timestamp
  else if (str "time ").isPrefixOf trimmed || trimmed == str "time" then
    if containsSub (str "with time zone") trimmed then
      Except.ok DataType.TimeTz
    else
      Except.ok DataType.Time
  else
    match simpleLookup trimmed with
    | some d => Except.ok d
    | none => Except.ok (DataType.Enum type_str)

/-- Fuel-indexed body of `parse_data_type`: the recursion strips one `"[]"`
suffix from the trimmed lower-cased string, so each call shortens the
argument by at least two characters and `length + 1` fuel always suffices. -/
def parseDT : Nat → List Char → Except Unit DataType
  | 0, _ => Except.error ()
  | fuel + 1, type_str =>
    if (str "[]").isSuffixOf (rsTrim (type_str.map Char.toLower)) then
      Except.map DataType.Array (parseDT fuel
        ((rsTrim (type_str.map Char.toLower)).take
          ((rsTrim (type_str.map Char.toLower)).length - 2)))
    else parseBase type_str (rsTrim (type_str.map Char.toLower))

/-- `parse_data_type` (src/introspect/postgres.rs). -/
def parse_data_type (type_str : List Char) : Except Unit DataType :=
  parseDT (type_str.length + 1) type_str

/-- `n` copies of the `"[]"` array suffix. -/
def arrSuffix : Nat → List Char
  | 0 => []
  | n + 1 => arrSuffix n ++ str "[]"

/-- `Array` nested `n` deep around `d`. -/
def nestArray : Nat → DataType → DataType
  | 0, d => d
  | n + 1, d => DataType.Array (nestArray n d)

/-- The trimmed lower-cased string matches none of the `parse_data_type`
rules before the `Enum` fallback. -/
def noRuleMatches (trimmed : List Char) : Bool :=
  !((str "[]").isSuffixOf trimmed)
    && !((str "character varying").isPrefixOf trimmed)
    && !((str "varchar").isPrefixOf trimmed)
    && !((str "character(").isPrefixOf trimmed)
    && !((str "char(").isPrefixOf trimmed)
    && !((str "numeric").isPrefixOf trimmed)
    && !((str "decimal").isPrefixOf trimmed)
    && !((str "timestamp").isPrefixOf trimmed)
    && !((str "time ").isPrefixOf trimmed)
    && !(trimmed == str "time")
    && (simpleLookup trimmed).isNone

/-! ## Error type (src/error.rs) -/

/-- `SqliftError` (src/error.rs).  `Output` wraps a `std::io::Error`, modelled
by its message; the `#[from]` conversion is applied at each `?` on a
file-system operation. -/
inductive SqliftError where
  | Connection (msg : List Char)
  | Introspection (schema : List Char) (message : List Char)
  | CodeGen (table : List Char) (message : List Char)
  | Output (msg : List Char)
  | Config (msg : List Char)
deriving DecidableEq

/-! ## Code generation configuration (src/codegen/mod.rs) -/

/-- `OutputMode` (src/codegen/mod.rs). -/
inductive OutputMode where
  | Library
  | Flat
deriving DecidableEq

/-- `FunctionStyle` (src/codegen/mod.rs). -/
inductive FunctionStyle where
  | Standalone
  | Class
deriving DecidableEq

/-- `CodeGenConfig` (src/codegen/mod.rs); the `PathBuf` is a path string. -/
structure CodeGenConfig where
  output_path : List Char
  output_mode : OutputMode
  function_style : FunctionStyle
deriving DecidableEq

/-! ## Python backend (src/codegen/python/mod.rs) -/

/-- Lexicographic strict order on strings (Rust `String`, byte order, which
for the ASCII import strings below is character order). -/
def lexLt : List Char → List Char → Bool
  | [], [] => false
  | [], _ :: _ => true
  | _ :: _, [] => false
  | a :: xs, b :: ys =>
    if a.toNat < b.toNat then true
    else if b.toNat < a.toNat then false
    else lexLt xs ys

/-- Insert into a sorted duplicate-free list, keeping it sorted and
duplicate-free. -/
def insertSorted (x : List Char) : List (List Char) → List (List Char)
  | [] => [x]
  | y :: ys =>
    if x == y then y :: ys
    else if lexLt x y then x :: y :: ys
    else y :: insertSorted x ys

/-- Model of collecting into a `HashSet<String>` followed by `Vec::sort`:
the observable result is the sorted duplicate-free list of the inserted
strings, independent of insertion or hash-iteration order. -/
def sortedDedup (l : List (List Char)) : List (List Char) :=
  l.foldl (fun acc x => insertSorted x acc) []

/-- `collect_type_imports` (src/codegen/python/mod.rs): the inserts performed
for one `DataType`, recursively through `Array`, in execution order. -/
def collect_type_imports (schema : Schema) : DataType → List (List Char)
  | DataType.Numeric => [ str "from decimal import Decimal" ]
  | DataType.Timestamp | DataType.TimestampTz => [ str "from datetime import datetime" ]
  | DataType.Date => [ str "from datetime import date" ]
  | DataType.Time | DataType.TimeTz => [ str "from datetime import time" ]
  | DataType.Uuid => [ str "from uuid import UUID" ]
  | DataType.Json | DataType.JsonBinary => [ str "from typing import Any" ]
  | DataType.Array inner => collect_type_imports schema inner
  | DataType.Enum name =>
    if schema.enums.any (fun e => e.name == name) then
      [ str "from .enums import " ++ to_pascal_case name ]
    else []
  | _ => []

/-- `collect_table_imports` (src/codegen/python/mod.rs). -/
def collect_table_imports (table : Table) (schema : Schema) : List (List Char) :=
  sortedDedup ((table.columns.map (fun col => collect_type_imports schema col.data_type)).flatten)

/-- `collect_imports` (src/codegen/python/mod.rs): whole-schema variant. -/
def collect_imports (schema : Schema) : List (List Char) :=
  sortedDedup ((schema.tables.map (fun t =>
    (t.columns.map (fun col => collect_type_imports schema col.data_type)).flatten)).flatten)

/-- `python_type` (src/codegen/python/mod.rs): render a `DataType` as a
Python type string; `" | None"` is appended when `is_nullable`. -/
def python_type (data_type : DataType) (is_nullable : Bool) (schema : Schema) : List Char :=
  let base_type := match data_type with
    | DataType.SmallInt | DataType.Integer | DataType.BigInt => str "int"
    | DataType.Boolean => str "bool"
    | DataType.Text | DataType.Varchar _ | DataType.Char _ => str "str"
    | DataType.Real | DataType.DoublePrecision => str "float"
    | DataType.Numeric => str "Decimal"
    | DataType.Timestamp | DataType.TimestampTz => str "datetime"
    | DataType.Date => str "date"
    | DataType.Time | DataType.TimeTz => str "time"
    | DataType.Uuid => str "UUID"
    | DataType.Json | DataType.JsonBinary => str "dict[str, Any]"
    | DataType.Binary => str "bytes"
    | DataType.Array inner => str "list[" ++ python_type inner false schema ++ str "]"
    | DataType.Enum name =>
      if schema.enums.any (fun e => e.name == name) then to_pascal_case name
      else str "str"
  if is_nullable then base_type ++ str " | None" else base_type

/-- The per-enum entry of the minijinja contexts. -/
structure EnumCtx where
  name : List Char
  db_name : List Char
  values : List (List Char)
deriving DecidableEq

/-- Context entry built for one `EnumType` (render_enums / render_flat). -/
def enumCtxOf (e : EnumType) : EnumCtx :=
  { name := to_pascal_case e.name, db_name := e.name, values := e.values }

/-- The column context built by `build_column_context`. -/
structure ColumnCtx where
  name : List Char
  python_type : List Char
  base_type : List Char
  is_nullable : Bool
  has_default : Bool
  is_auto_generated : Bool
deriving DecidableEq

/-- `build_column_context` (src/codegen/python/mod.rs). -/
def build_column_context (col : Column) (schema : Schema) : ColumnCtx :=
  { name := col.name,
    python_type := python_type col.data_type col.is_nullable schema,
    base_type := python_type col.data_type false schema,
    is_nullable := col.is_nullable,
    has_default := col.has_default,
    is_auto_generated := col.is_auto_generated }

/-- The table context built by `build_table_context`. -/
structure TableCtx where
  table_name : List Char
  record_name : List Char
  class_name : List Char
  columns : List ColumnCtx
  pk_columns : List ColumnCtx
  insert_columns : List ColumnCtx
  non_pk_columns : List ColumnCtx
  has_pk : Bool
  has_auto_generated_pk : Bool
  imports : List (List Char)
deriving DecidableEq

/-- The context record assembled by `build_table_context`. -/
def build_table_ctx (table : Table) (schema : Schema) : TableCtx :=
  { table_name := table.name,
    record_name := table.singular_class_name ++ str "Record",
    class_name := table.singular_class_name,
    columns := table.columns.map (fun col => build_column_context col schema),
    pk_columns := table.primary_key_columns.map (fun col => build_column_context col schema),
    insert_columns := table.insert_columns.map (fun col => build_column_context col schema),
    non_pk_columns := table.non_pk_columns.map (fun col => build_column_context col schema),
    has_pk := !table.primary_key.isEmpty,
    has_auto_generated_pk := table.has_auto_generated_pk,
    imports := collect_table_imports table schema }

/-- `build_table_context` (src/codegen/python/mod.rs).  The Rust signature
returns `Result`, but every field construction is infallible: the body is
`Ok(context)`. -/
def build_table_context (table : Table) (schema : Schema) : Except SqliftError TableCtx :=
  Except.ok (build_table_ctx table schema)

/-- Per-table entry of the `__init__` context. -/
structure InitTableCtx where
  module_name : List Char
  record_name : List Char
deriving DecidableEq

/-- Context for the `init` template. -/
structure InitCtx where
  tables : List InitTableCtx
  has_enums : Bool
  enums : List (List Char)
deriving DecidableEq

/-- Context for the `flat` template. -/
structure FlatCtx where
  enums : List EnumCtx
  tables : List TableCtx
  imports : List (List Char)
  function_style : List Char
deriving DecidableEq

/-- The structured context handed to the rendering boundary. -/
inductive Ctx where
  | enumsC (es : List EnumCtx)
  | tableC (t : TableCtx)
  | flatC (f : FlatCtx)
  | initC (i : InitCtx)
deriving DecidableEq

/-- The minijinja boundary: template lookup and rendering, each returning
either an error message or (for render) the produced text. -/
structure MiniJinjaEnv where
  get_template : List Char → Except (List Char) Unit
  render : List Char → Ctx → Except (List Char) (List Char)

/-- The file-system boundary: directory creation and file writes, each of
which may fail with an io error message. -/
structure Fs where
  create_dir_all : List Char → Except (List Char) Unit
  write : List Char → List Char → Except (List Char) Unit

/-! ## Path model (std::path, as used by generate_flat / generate_library)

The embedding models paths as plain strings.  `pathExtension` and
`withExtension` mirror `Path::extension` / `Path::with_extension` for paths
whose final component is the whole string (no `/`, not `.` or `..`), which is
the shape exercised by the claims; `pathJoin` mirrors `PathBuf::join` for a
relative file name. -/

/-- `PathBuf::join` for a relative file-name argument. -/
def pathJoin (dir file : List Char) : List Char := dir ++ [ '/' ] ++ file

/-- Index of the last `'.'` in a file name, if any. -/
def lastDotIdx (f : List Char) : Option Nat :=
  (f.reverse.findIdx? (fun c => c == '.')).map (fun i => f.length - 1 - i)

/-- `Path::extension`: the portion after the final `'.'`; `none` when there
is no `'.'`, or when the only `'.'` is the leading character. -/
def pathExtension (f : List Char) : Option (List Char) :=
  match lastDotIdx f with
  | none => none
  | some i => if i == 0 then none else some (f.drop (i + 1))

/-- `Path::file_stem`: the portion before the final `'.'`, or the whole name
when there is no `'.'` or the only `'.'` leads. -/
def fileStem (f : List Char) : List Char :=
  match lastDotIdx f with
  | none => f
  | some i => if i == 0 then f else f.take i

/-- `Path::with_extension` for a non-empty extension: file stem, `'.'`, the
new extension. -/
def withExtension (f ext : List Char) : List Char :=
  fileStem f ++ [ '.' ] ++ ext

/-- The output path chosen by `generate_flat` (src/codegen/python/mod.rs):
keep the configured path when its extension is already `py`, otherwise
`with_extension("py")`. -/
def final_path (output_path : List Char) : List Char :=
  if pathExtension output_path == some (str "py") then output_path
  else withExtension output_path (str "py")

/-- `Path::parent` restricted to the path shapes above: `none` for the empty
path, the empty string for a bare file name, the prefix before the last `/`
otherwise. -/
def parentDir (p : List Char) : Option (List Char) :=
  if p.isEmpty then none
  else
    match p.reverse.findIdx? (fun c => c == '/') with
    | none => some []
    | some i => some (p.take (p.length - 1 - i))

/-! ## Renderers and generators (src/codegen/python/mod.rs) -/

/-- `PythonGenerator::render_enums`. -/
def render_enums (env : MiniJinjaEnv) (enums : List EnumType) : Except SqliftError (List Char) :=
  match env.get_template (str "enum") with
  | Except.error e =>
    Except.error (SqliftError.CodeGen (str "enums") (str "Template error: " ++ e))
  | Except.ok _ =>
    match env.render (str "enum") (Ctx.enumsC (enums.map enumCtxOf)) with
    | Except.error e =>
      Except.error (SqliftError.CodeGen (str "enums") (str "Render error: " ++ e))
    | Except.ok code => Except.ok code

/-- `PythonGenerator::render_table`. -/
def render_table (env : MiniJinjaEnv) (table : Table) (schema : Schema)
    (config : CodeGenConfig) : Except SqliftError (List Char) :=
  let template_name := match config.function_style with
    | FunctionStyle.Standalone => str "standalone"
    | FunctionStyle.Class => str "repository"
  match env.get_template template_name with
  | Except.error e =>
    Except.error (SqliftError.CodeGen table.name (str "Template error: " ++ e))
  | Except.ok _ =>
    match build_table_context table schema with
    | Except.error err => Except.error err
    | Except.ok ctx =>
      match env.render template_name (Ctx.tableC ctx) with
      | Except.error e =>
        Except.error (SqliftError.CodeGen table.name (str "Render error: " ++ e))
      | Except.ok code => Except.ok code

/-- `PythonGenerator::render_flat`. -/
def render_flat (env : MiniJinjaEnv) (schema : Schema) (config : CodeGenConfig) :
    Except SqliftError (List Char) :=
  match env.get_template (str "flat") with
  | Except.error e =>
    Except.error (SqliftError.CodeGen (str "flat") (str "Template error: " ++ e))
  | Except.ok _ =>
    match schema.tables.mapM (fun t => build_table_context t schema) with
    | Except.error err => Except.error err
    | Except.ok tables_ctx =>
      let ctx := Ctx.flatC
        { enums := schema.enums.map enumCtxOf,
          tables := tables_ctx,
          imports := collect_imports schema,
          function_style := match config.function_style with
            | FunctionStyle.Standalone => str "standalone"
            | FunctionStyle.Class => str "class" }
      match env.render (str "flat") ctx with
      | Except.error e =>
        Except.error (SqliftError.CodeGen (str "flat") (str "Render error: " ++ e))
      | Except.ok code => Except.ok code

/-- `PythonGenerator::render_init`. -/
def render_init (env : MiniJinjaEnv) (schema : Schema) : Except SqliftError (List Char) :=
  match env.get_template (str "init") with
  | Except.error e =>
    Except.error (SqliftError.CodeGen (str "__init__") (str "Template error: " ++ e))
  | Except.ok _ =>
    let ctx := Ctx.initC
      { tables := schema.tables.map (fun t =>
          { module_name := t.name,
            record_name := t.singular_class_name ++ str "Record" }),
        has_enums := !schema.enums.isEmpty,
        enums := schema.enums.map (fun e => to_pascal_case e.name) }
    match env.render (str "init") ctx with
    | Except.error e =>
      Except.error (SqliftError.CodeGen (str "__init__") (str "Render error: " ++ e))
    | Except.ok code => Except.ok code

/-- The per-table loop of `generate_library`: render and write one file per
table, in order, stopping at the first failure.  The returned list is the
trace of file writes performed. -/
def gen_table_files (env : MiniJinjaEnv) (fs : Fs) (schema : Schema)
    (config : CodeGenConfig) (output_dir : List Char) :
    List Table → Except SqliftError (List (List Char × List Char))
  | [] => Except.ok []
  | table :: rest =>
    match render_table env table schema config with
    | Except.error err => Except.error err
    | Except.ok code =>
      let file_path := pathJoin output_dir (table.name ++ str ".py")
      match fs.write file_path code with
      | Except.error e => Except.error (SqliftError.Output e)
      | Except.ok _ =>
        match gen_table_files env fs schema config output_dir rest with
        | Except.error err => Except.error err
        | Except.ok ws => Except.ok ((file_path, code) :: ws)

/-- `PythonGenerator::generate_library`: create the output directory, write
`enums.py` when enums exist, one file per table, then `__init__.py` last.
The result is the ordered trace of file writes. -/
def generate_library (env : MiniJinjaEnv) (fs : Fs) (schema : Schema)
    (config : CodeGenConfig) : Except SqliftError (List (List Char × List Char)) :=
  let output_dir := config.output_path
  match fs.create_dir_all output_dir with
  | Except.error e => Except.error (SqliftError.Output e)
  | Except.ok _ =>
    let enumStep : Except SqliftError (List (List Char × List Char)) :=
      if !schema.enums.isEmpty then
        match render_enums env schema.enums with
        | Except.error err => Except.error err
        | Except.ok enum_code =>
          let enum_path := pathJoin output_dir (str "enums.py")
          match fs.write enum_path enum_code with
          | Except.error e => Except.error (SqliftError.Output e)
          | Except.ok _ => Except.ok [(enum_path, enum_code)]
      else Except.ok []
    match enumStep with
    | Except.error err => Except.error err
    | Except.ok ws1 =>
      match gen_table_files env fs schema config output_dir schema.tables with
      | Except.error err => Except.error err
      | Except.ok ws2 =>
        match render_init env schema with
        | Except.error err => Except.error err
        | Except.ok init_code =>
          let init_path := pathJoin output_dir (str "__init__.py")
          match fs.write init_path init_code with
          | Except.error e => Except.error (SqliftError.Output e)
          | Except.ok _ => Except.ok (ws1 ++ ws2 ++ [(init_path, init_code)])

/-- `PythonGenerator::generate_flat`: ensure the parent directory exists,
render the single artifact, choose `final_path`, write exactly one file. -/
def generate_flat (env : MiniJinjaEnv) (fs : Fs) (schema : Schema)
    (config : CodeGenConfig) : Except SqliftError (List (List Char × List Char)) :=
  let dirStep : Except SqliftError Unit :=
    match parentDir config.output_path with
    | some parent =>
      if !parent.isEmpty then
        match fs.create_dir_all parent with
        | Except.error e => Except.error (SqliftError.Output e)
        | Except.ok _ => Except.ok ()
      else Except.ok ()
    | none => Except.ok ()
  match dirStep with
  | Except.error err => Except.error err
  | Except.ok _ =>
    match render_flat env schema config with
    | Except.error err => Except.error err
    | Except.ok code =>
      let fp := final_path config.output_path
      match fs.write fp code with
      | Except.error e => Except.error (SqliftError.Output e)
      | Except.ok _ => Except.ok [(fp, code)]

/-- `PythonGenerator::generate` (the `CodeGenerator` impl): dispatch on the
configured output mode. -/
def generate (env : MiniJinjaEnv) (fs : Fs) (schema : Schema) (config : CodeGenConfig) :
    Except SqliftError (List (List Char × List Char)) :=
  match config.output_mode with
  | OutputMode.Library => generate_library env fs schema config
  | OutputMode.Flat => generate_flat env fs schema config

/-! ## Concrete fixtures used by witnesses and counterexamples -/

/-- The `users` table of the spec's end-to-end scenario. -/
def usersTable : Table :=
  { name := str "users",
    columns := [
      { name := str "id", data_type := DataType.Integer,
        is_nullable := false, has_default := true, is_auto_generated := true },
      { name := str "email", data_type := DataType.Text,
        is_nullable := false, has_default := false, is_auto_generated := false },
      { name := str "bio", data_type := DataType.Text,
        is_nullable := true, has_default := false, is_auto_generated := false } ],
    primary_key := [ str "id" ] }

/-- A one-table, enum-free schema. -/
def sampleSchema : Schema :=
  { name := str "public", tables := [ usersTable ], enums := [] }

/-- Rendering boundary that always succeeds. -/
def okEnv : MiniJinjaEnv :=
  { get_template := fun _ => Except.ok (),
    render := fun _ _ => Except.ok (str "code") }

/-- File system that always succeeds. -/
def okFs : Fs :=
  { create_dir_all := fun _ => Except.ok (),
    write := fun _ _ => Except.ok () }

/-- File system whose writes fail. -/
def failWriteFs : Fs :=
  { create_dir_all := fun _ => Except.ok (),
    write := fun _ _ => Except.error (str "disk full") }

/-- Rendering boundary that fails on the `flat` template only. -/
def flatFailEnv : MiniJinjaEnv :=
  { get_template := fun _ => Except.ok (),
    render := fun name _ =>
      if name == str "flat" then Except.error (str "boom")
      else Except.ok (str "code") }

/-- Library-mode configuration writing to directory `out`. -/
def cfgLib : CodeGenConfig :=
  { output_path := str "out", output_mode := OutputMode.Library,
    function_style := FunctionStyle.Standalone }

/-- Flat-mode configuration whose output path has an unrelated extension. -/
def cfgFlatTxt : CodeGenConfig :=
  { output_path := str "models.txt", output_mode := OutputMode.Flat,
    function_style := FunctionStyle.Standalone }

/-! ## Stable sort on the nullability key -/

theorem insertLe_trans (a b c : Column) :
    (!a.is_nullable || b.is_nullable) = true → (!b.is_nullable || c.is_nullable) = true →
    (!a.is_nullable || c.is_nullable) = true := by
  cases ha : a.is_nullable <;> cases hb : b.is_nullable <;> cases hc : c.is_nullable <;> simp_all

theorem insertLe_total (a b : Column) :
    ((!a.is_nullable || b.is_nullable) || (!b.is_nullable || a.is_nullable)) = true := by
  cases a.is_nullable <;> cases b.is_nullable <;> simp

theorem pairwise_bool_partition (m : List Column)
    (h : m.Pairwise (fun a b => (!a.is_nullable || b.is_nullable) = true)) :
    m = m.filter (fun c => !c.is_nullable) ++ m.filter (fun c => c.is_nullable) := by
  induction m with
  | nil => rfl
  | cons c rest ih =>
    rcases List.pairwise_cons.mp h with ⟨hc, hrest⟩
    cases hcn : c.is_nullable with
    | false =>
      have := ih hrest
      simp [List.filter_cons, hcn]
      exact this
    | true =>
      have hall : ∀ b ∈ rest, b.is_nullable = true := by
        intro b hb
        have := hc b hb
        rw [hcn] at this
        simpa using this
      have h1 : rest.filter (fun c => !c.is_nullable) = [] := by
        rw [List.filter_eq_nil_iff]
        intro b hb
        simp [hall b hb]
      have h2 : rest.filter (fun c => c.is_nullable) = rest := by
        rw [List.filter_eq_self]
        intro b hb
        simp [hall b hb]
      simp [List.filter_cons, hcn, h1, h2]

theorem mergeSort_bool_key (l : List Column) :
    l.mergeSort (fun a b => !a.is_nullable || b.is_nullable)
      = l.filter (fun c => !c.is_nullable) ++ l.filter (fun c => c.is_nullable) := by
  have htrans : ∀ a b c : Column,
      (fun a b : Column => !a.is_nullable || b.is_nullable) a b = true →
      (fun a b : Column => !a.is_nullable || b.is_nullable) b c = true →
      (fun a b : Column => !a.is_nullable || b.is_nullable) a c = true := insertLe_trans
  have htotal : ∀ a b : Column,
      ((fun a b : Column => !a.is_nullable || b.is_nullable) a b
        || (fun a b : Column => !a.is_nullable || b.is_nullable) b a) = true := insertLe_total
  have hperm := List.mergeSort_perm l (fun a b : Column => !a.is_nullable || b.is_nullable)
  have hsorted := List.sorted_mergeSort htrans htotal l
  have hpart := pairwise_bool_partition _ hsorted
  have hsubF : List.Sublist (l.filter (fun c => !c.is_nullable))
      (l.mergeSort (fun a b => !a.is_nullable || b.is_nullable)) := by
    apply List.sublist_mergeSort htrans htotal
    · apply List.pairwise_of_forall_mem_list
      intro a ha b hb
      have ha' := List.of_mem_filter ha
      simp only [Bool.not_eq_true'] at ha'
      simp [ha']
    · exact List.filter_sublist l
  have hsubT : List.Sublist (l.filter (fun c => c.is_nullable))
      (l.mergeSort (fun a b => !a.is_nullable || b.is_nullable)) := by
    apply List.sublist_mergeSort htrans htotal
    · apply List.pairwise_of_forall_mem_list
      intro a ha b hb
      have hb' := List.of_mem_filter hb
      simp [hb']
    · exact List.filter_sublist l
  have hfF : (l.mergeSort (fun a b => !a.is_nullable || b.is_nullable)).filter
      (fun c => !c.is_nullable) = l.filter (fun c => !c.is_nullable) := by
    have h1 := List.Sublist.filter (fun c => !c.is_nullable) hsubF
    rw [List.filter_filter] at h1
    simp only [Bool.and_self] at h1
    have hlen := (hperm.filter (fun c => !c.is_nullable)).length_eq
    exact (List.Sublist.eq_of_length h1 hlen.symm).symm
  have hfT : (l.mergeSort (fun a b => !a.is_nullable || b.is_nullable)).filter
      (fun c => c.is_nullable) = l.filter (fun c => c.is_nullable) := by
    have h1 := List.Sublist.filter (fun c => c.is_nullable) hsubT
    rw [List.filter_filter] at h1
    simp only [Bool.and_self] at h1
    have hlen := (hperm.filter (fun c => c.is_nullable)).length_eq
    exact (List.Sublist.eq_of_length h1 hlen.symm).symm
  calc l.mergeSort (fun a b => !a.is_nullable || b.is_nullable)
      = _ ++ _ := hpart
    _ = _ := by rw [hfF, hfT]

theorem insert_columns_eq (t : Table) :
    t.insert_columns
      = (t.columns.filter (fun c => !c.is_auto_generated && !c.has_default)).filter
          (fun c => !c.is_nullable)
        ++ (t.columns.filter (fun c => !c.is_auto_generated && !c.has_default)).filter
          (fun c => c.is_nullable) := by
  unfold Table.insert_columns
  exact mergeSort_bool_key _

/-- Claim C4: `insert_columns()` contains exactly the columns that are neither
auto-generated nor defaulted (as a permutation of the filtered column list),
every non-nullable entry precedes every nullable entry, and entries of equal
nullability keep their relative order from the table's column list. -/
theorem c4_insert_columns (t : Table) :
    (t.insert_columns).Perm
        (t.columns.filter (fun c => !c.is_auto_generated && !c.has_default))
    ∧ (∀ c ∈ t.insert_columns, c.is_auto_generated = false ∧ c.has_default = false)
    ∧ (t.insert_columns).Pairwise (fun a b => a.is_nullable = true → b.is_nullable = true)
    ∧ (t.insert_columns).filter (fun c => !c.is_nullable)
        = (t.columns.filter (fun c => !c.is_auto_generated && !c.has_default)).filter
            (fun c => !c.is_nullable)
    ∧ (t.insert_columns).filter (fun c => c.is_nullable)
        = (t.columns.filter (fun c => !c.is_auto_generated && !c.has_default)).filter
            (fun c => c.is_nullable) := by
  have hperm : (t.insert_columns).Perm
      (t.columns.filter (fun c => !c.is_auto_generated && !c.has_default)) := by
    rw [insert_columns_eq]
    have := List.filter_append_perm (fun c : Column => !c.is_nullable)
      (t.columns.filter (fun c => !c.is_auto_generated && !c.has_default))
    simpa using this
  refine ⟨hperm, ?_, ?_, ?_, ?_⟩
  · intro c hc
    have := hperm.mem_iff.mp hc
    have := List.of_mem_filter this
    simp only [Bool.and_eq_true, Bool.not_eq_true'] at this
    exact this
  · rw [insert_columns_eq]
    apply List.pairwise_append.mpr
    refine ⟨?_, ?_, ?_⟩
    · apply List.pairwise_of_forall_mem_list
      intro a ha b hb hn
      have := List.of_mem_filter ha
      simp only [Bool.not_eq_true'] at this
      rw [this] at hn
      exact absurd hn (by simp)
    · apply List.pairwise_of_forall_mem_list
      intro a ha b hb _
      exact List.of_mem_filter hb
    · intro a ha b hb _
      exact List.of_mem_filter hb
  · rw [insert_columns_eq, List.filter_append]
    have h1 : List.filter (fun c => !c.is_nullable)
        (List.filter (fun c => !c.is_nullable)
          (List.filter (fun c => !c.is_auto_generated && !c.has_default) t.columns))
        = List.filter (fun c => !c.is_nullable)
          (List.filter (fun c => !c.is_auto_generated && !c.has_default) t.columns) := by
      rw [List.filter_filter]
      apply List.filter_congr
      intro a _
      cases a.is_nullable <;> rfl
    have h2 : List.filter (fun c => !c.is_nullable)
        (List.filter (fun c => c.is_nullable)
          (List.filter (fun c => !c.is_auto_generated && !c.has_default) t.columns))
        = [] := by
      rw [List.filter_filter, List.filter_eq_nil_iff]
      intro a _
      cases a.is_nullable <;> simp
    rw [h1, h2, List.append_nil]
  · rw [insert_columns_eq, List.filter_append]
    have h1 : List.filter (fun c => c.is_nullable)
        (List.filter (fun c => !c.is_nullable)
          (List.filter (fun c => !c.is_auto_generated && !c.has_default) t.columns))
        = [] := by
      rw [List.filter_filter, List.filter_eq_nil_iff]
      intro a _
      cases a.is_nullable <;> simp
    have h2 : List.filter (fun c => c.is_nullable)
        (List.filter (fun c => c.is_nullable)
          (List.filter (fun c => !c.is_auto_generated && !c.has_default) t.columns))
        = List.filter (fun c => c.is_nullable)
          (List.filter (fun c => !c.is_auto_generated && !c.has_default) t.columns) := by
      rw [List.filter_filter]
      apply List.filter_congr
      intro a _
      cases a.is_nullable <;> rfl
    rw [h1, h2, List.nil_append]

/-- Claim C1 (code bug): `parse_data_type` is not total.  On the input
`"varchar)("` the varchar rule fires and `extract_length` slices
`type_str[start + 1..end]` with `start = 8` (first `'('`) and `end = 7`
(first `')'`), a Rust slice-bounds panic, modelled by `Except.error`. -/
theorem c1_parse_panics_on_reversed_parens :
    parse_data_type (str "varchar)(") = Except.error () := rfl

/-- Claim C10: `to_pascal_case` upper-cases only the first character of each
underscore-separated segment and leaves the remaining characters unchanged,
so `"api_KEY"` maps to `"ApiKEY"`, and `Table::class_name` computes exactly
`to_pascal_case` of the table name. -/
theorem c10_pascal :
    (∀ ws : List (List Char), ws ≠ [] → (∀ w ∈ ws, '_' ∉ w) →
      to_pascal_case ([ '_' ].intercalate ws)
        = (ws.map (fun w => (w.take 1).map Char.toUpper ++ w.drop 1)).flatten)
    ∧ to_pascal_case (str "api_KEY") = str "ApiKEY"
    ∧ ∀ t : Table, t.class_name = to_pascal_case t.name := by
  refine ⟨?_, by decide, fun t => rfl⟩
  intro ws hne hns
  unfold to_pascal_case
  rw [List.splitOn_intercalate ws '_' hns hne]
  congr 1
  apply List.map_congr_left
  intro w _
  cases w with
  | nil => rfl
  | cons c rest => simp

/-- Claim C9: `python_type` applies nullability only at the outermost level:
the nullable rendering is the non-nullable rendering followed by
`" | None"`, and the element type inside an `Array` is always rendered in
its non-nullable form. -/
theorem c9_nullability :
    (∀ (t : DataType) (s : Schema),
      python_type t true s = python_type t false s ++ str " | None")
    ∧ ∀ (inner : DataType) (b : Bool) (s : Schema),
        python_type (DataType.Array inner) b s
          = str "list[" ++ python_type inner false s ++ str "]"
            ++ (if b then str " | None" else []) := by
  constructor
  · intro t s
    conv_lhs => rw [python_type.eq_def]
    conv_rhs => rw [python_type.eq_def]
    simp
  · intro inner b s
    rw [python_type.eq_def]
    cases b <;> simp

/-- Claim C5: under the data-model invariant that column names are unique,
`has_auto_generated_pk()` is true iff some name in `primary_key` refers to a
column whose `is_auto_generated` is true, and it is false for an empty
`primary_key`. -/
theorem c5_auto_pk (t : Table) (h : (t.columns.map Column.name).Nodup) :
    (t.has_auto_generated_pk = true ↔
      ∃ name ∈ t.primary_key, ∃ c ∈ t.columns, c.name = name ∧ c.is_auto_generated = true)
    ∧ (t.primary_key = [] → t.has_auto_generated_pk = false) := by
  constructor
  · unfold Table.has_auto_generated_pk
    rw [List.any_eq_true]
    constructor
    · rintro ⟨pk, hpk, hval⟩
      cases hfind : t.columns.find? (fun col => col.name == pk) with
      | none => rw [hfind] at hval; simp at hval
      | some c =>
        rw [hfind] at hval
        simp at hval
        exact ⟨pk, hpk, c, List.mem_of_find?_eq_some hfind,
          by simpa using List.find?_some hfind, hval⟩
    · rintro ⟨pk, hpk, c, hc, hname, hauto⟩
      refine ⟨pk, hpk, ?_⟩
      have hex : (t.columns.find? (fun col => col.name == pk)).isSome := by
        rw [List.find?_isSome]
        exact ⟨c, hc, by simp [hname]⟩
      obtain ⟨c', hfind⟩ := Option.isSome_iff_exists.mp hex
      have hc' : c' ∈ t.columns := List.mem_of_find?_eq_some hfind
      have hn' : c'.name = pk := by simpa using List.find?_some hfind
      have heq : c' = c := List.inj_on_of_nodup_map h hc' hc (by rw [hn', hname])
      rw [hfind]
      subst heq
      simp [hauto]
  · intro hpk
    unfold Table.has_auto_generated_pk
    rw [hpk]
    rfl

/-! ## Unfolding and canonical-form lemmas for the type mapper -/

theorem length_dropWhile_le (p : Char → Bool) (l : List Char) :
    (l.dropWhile p).length ≤ l.length := by
  induction l with
  | nil => simp
  | cons a t ih =>
    rw [List.dropWhile_cons]
    by_cases hp : p a
    · rw [if_pos hp]
      exact Nat.le_trans ih (Nat.le_succ _)
    · rw [if_neg hp]

theorem rsTrim_length_le (s : List Char) : (rsTrim s).length ≤ s.length := by
  unfold rsTrim
  have h1 := length_dropWhile_le Char.isWhitespace s
  have h2 := length_dropWhile_le Char.isWhitespace (s.dropWhile Char.isWhitespace).reverse
  simp only [List.length_reverse] at h2 ⊢
  omega

theorem suffix_box_length {t : List Char} (h : (str "[]").isSuffixOf t = true) :
    2 ≤ t.length := by
  have hs := List.isSuffixOf_iff_suffix.mp h
  simpa using hs.length_le

theorem parseDT_congr : ∀ (f g : Nat) (s : List Char),
    s.length < f → s.length < g → parseDT f s = parseDT g s := by
  intro f
  induction f with
  | zero =>
    intro g s hf hg
    exact absurd hf (Nat.not_lt_zero _)
  | succ f ih =>
    intro g s hf hg
    cases g with
    | zero => omega
    | succ g' =>
      simp only [parseDT]
      by_cases h : (str "[]").isSuffixOf (rsTrim (s.map Char.toLower)) = true
      · rw [if_pos h, if_pos h]
        congr 1
        have hlen : (rsTrim (s.map Char.toLower)).length ≤ s.length := by
          have := rsTrim_length_le (s.map Char.toLower)
          simpa using this
        have hbox := suffix_box_length h
        have htk : ((rsTrim (s.map Char.toLower)).take
            ((rsTrim (s.map Char.toLower)).length - 2)).length
            = (rsTrim (s.map Char.toLower)).length - 2 := by
          rw [List.length_take]
          omega
        apply ih
        · omega
        · omega
      · rw [if_neg h, if_neg h]

theorem parse_data_type_eq (s : List Char) :
    parse_data_type s =
      if (str "[]").isSuffixOf (rsTrim (s.map Char.toLower)) then
        Except.map DataType.Array (parse_data_type
          ((rsTrim (s.map Char.toLower)).take ((rsTrim (s.map Char.toLower)).length - 2)))
      else parseBase s (rsTrim (s.map Char.toLower)) := by
  show parseDT (s.length + 1) s = _
  simp only [parseDT]
  by_cases h : (str "[]").isSuffixOf (rsTrim (s.map Char.toLower)) = true
  · rw [if_pos h, if_pos h]
    congr 1
    have hlen : (rsTrim (s.map Char.toLower)).length ≤ s.length := by
      have := rsTrim_length_le (s.map Char.toLower)
      simpa using this
    have hbox := suffix_box_length h
    have htk : ((rsTrim (s.map Char.toLower)).take
        ((rsTrim (s.map Char.toLower)).length - 2)).length
        = (rsTrim (s.map Char.toLower)).length - 2 := by
      rw [List.length_take]
      omega
    apply parseDT_congr
    · omega
    · omega
  · rw [if_neg h, if_neg h]

theorem dropWhile_len_eq {p : Char → Bool} {l : List Char}
    (h : (l.dropWhile p).length = l.length) : l.dropWhile p = l := by
  cases l with
  | nil => rfl
  | cons a t =>
    rw [List.dropWhile_cons] at h ⊢
    by_cases hp : p a
    · rw [if_pos hp] at h
      have := length_dropWhile_le p t
      simp at h
      omega
    · rw [if_neg hp]

theorem rsTrim_fix_dropWhile {u : List Char} (h : rsTrim u = u) :
    u.dropWhile Char.isWhitespace = u
      ∧ u.reverse.dropWhile Char.isWhitespace = u.reverse := by
  have hlen : (rsTrim u).length = u.length := by rw [h]
  unfold rsTrim at hlen
  have h1 := length_dropWhile_le Char.isWhitespace u
  have h2 := length_dropWhile_le Char.isWhitespace (u.dropWhile Char.isWhitespace).reverse
  simp only [List.length_reverse] at hlen h2
  have e1 : (u.dropWhile Char.isWhitespace).length = u.length := by omega
  have hd : u.dropWhile Char.isWhitespace = u := dropWhile_len_eq e1
  refine ⟨hd, ?_⟩
  have h3 : (u.reverse.dropWhile Char.isWhitespace).reverse = u := by
    have hcopy := h
    unfold rsTrim at hcopy
    rw [hd] at hcopy
    exact hcopy
  have := congrArg List.reverse h3
  simpa using this

theorem rsTrim_append_box {u : List Char} (h : rsTrim u = u) :
    rsTrim (u ++ str "[]") = u ++ str "[]" := by
  obtain ⟨h1, h2⟩ := rsTrim_fix_dropWhile h
  unfold rsTrim
  have hfront : (u ++ str "[]").dropWhile Char.isWhitespace = u ++ str "[]" := by
    rw [List.dropWhile_append, h1]
    cases u with
    | nil => decide
    | cons a t => simp
  rw [hfront]
  have hback : (u ++ str "[]").reverse.dropWhile Char.isWhitespace
      = (u ++ str "[]").reverse := by
    rw [List.reverse_append]
    show List.dropWhile Char.isWhitespace (']' :: '[' :: u.reverse) = ']' :: '[' :: u.reverse
    have hws : Char.isWhitespace ']' = false := by decide
    rw [List.dropWhile_cons, hws]
    simp
  rw [hback]
  exact List.reverse_reverse _

theorem parse_step {u : List Char} (hl : u.map Char.toLower = u) (ht : rsTrim u = u) :
    parse_data_type (u ++ str "[]") = Except.map DataType.Array (parse_data_type u) := by
  rw [parse_data_type_eq]
  have hmap : (u ++ str "[]").map Char.toLower = u ++ str "[]" := by
    rw [List.map_append, hl]
    rfl
  rw [hmap, rsTrim_append_box ht]
  have hsuf : (str "[]").isSuffixOf (u ++ str "[]") = true :=
    List.isSuffixOf_iff_suffix.mpr (List.suffix_append u (str "[]"))
  rw [if_pos hsuf]
  have hlen2 : (u ++ str "[]").length = u.length + 2 := by
    rw [List.length_append]
    rfl
  have htake : (u ++ str "[]").take ((u ++ str "[]").length - 2) = u := by
    rw [hlen2]
    have : u.length + 2 - 2 = u.length := by omega
    rw [this]
    exact List.take_left u (str "[]")
  rw [htake]

theorem canon_append_arr {s : List Char} (hl : s.map Char.toLower = s)
    (ht : rsTrim s = s) : ∀ n : Nat,
    (s ++ arrSuffix n).map Char.toLower = s ++ arrSuffix n
      ∧ rsTrim (s ++ arrSuffix n) = s ++ arrSuffix n := by
  intro n
  induction n with
  | zero => simpa [arrSuffix] using ⟨hl, ht⟩
  | succ n ih =>
    have hassoc : s ++ arrSuffix (n + 1) = (s ++ arrSuffix n) ++ str "[]" := by
      rw [arrSuffix, List.append_assoc]
    rw [hassoc]
    constructor
    · rw [List.map_append, ih.1]
      rfl
    · exact rsTrim_append_box ih.2

theorem parse_data_type_arr_general (s : List Char) (d : DataType)
    (hl : s.map Char.toLower = s) (ht : rsTrim s = s)
    (hp : parse_data_type s = Except.ok d) :
    ∀ n : Nat, parse_data_type (s ++ arrSuffix n) = Except.ok (nestArray n d) := by
  intro n
  induction n with
  | zero => simpa [arrSuffix, nestArray] using hp
  | succ n ih =>
    have hassoc : s ++ arrSuffix (n + 1) = (s ++ arrSuffix n) ++ str "[]" := by
      rw [arrSuffix, List.append_assoc]
    rw [hassoc]
    have hc := canon_append_arr hl ht n
    rw [parse_step hc.1 hc.2, ih]
    rfl

theorem findIdx_lt_of_some {p : Char → Bool} {l : List Char} {j : Nat}
    (h : List.findIdx? p l = some j) : j < l.length :=
  (List.findIdx?_eq_some_iff_getElem.mp h).fst

theorem prefix_trans_short {p q t : List Char}
    (hp : p.isPrefixOf t = true) (hq : q.isPrefixOf t = true)
    (hlen : q.length ≤ p.length) : q.isPrefixOf p = true := by
  rw [List.isPrefixOf_iff_prefix] at hp hq ⊢
  exact List.prefix_of_prefix_length_le hq hp hlen

theorem extract_length_ok {t : List Char} {k j : Nat}
    (h1 : List.findIdx? (fun c => c == '(') t = some k)
    (h2 : List.findIdx? (fun c => c == ')') t = some j)
    (hle : k + 1 ≤ j) :
    extract_length t = Except.ok (parseU32 (rsTrim
      (((t.drop (k + 1)).take (j - (k + 1))).takeWhile (fun c => c != ',')))) := by
  unfold extract_length
  rw [h1, h2]
  change (if k + 1 ≤ j then
      Except.ok (parseU32 (rsTrim
        (((t.drop (k + 1)).take (j - (k + 1))).takeWhile (fun c => c != ','))))
    else Except.error ()) = _
  rw [if_pos hle]

theorem extract_length_noclose {t : List Char}
    (h2 : List.findIdx? (fun c => c == ')') t = none) :
    extract_length t = Except.ok none := by
  unfold extract_length
  rw [h2]
  cases h1 : List.findIdx? (fun c => c == '(') t <;> rfl

theorem extract_length_total {pre : List Char} (k : Nat) {t : List Char}
    (hpre : pre.isPrefixOf t = true)
    (hk : List.findIdx? (fun c => c == '(') pre = some k)
    (hnp : List.findIdx? (fun c => c == ')') pre = none) :
    ∃ l, extract_length t = Except.ok l := by
  rw [List.isPrefixOf_iff_prefix] at hpre
  obtain ⟨rest, rfl⟩ := hpre
  have h1 : List.findIdx? (fun c => c == '(') (pre ++ rest) = some k := by
    rw [List.findIdx?_append, hk]
    rfl
  have h2eq : List.findIdx? (fun c => c == ')') (pre ++ rest)
      = Option.map (fun i => i + pre.length) (List.findIdx? (fun c => c == ')') rest) := by
    rw [List.findIdx?_append, hnp]
    rfl
  cases hr : List.findIdx? (fun c => c == ')') rest with
  | none =>
    have h2n : List.findIdx? (fun c => c == ')') (pre ++ rest) = none := by
      rw [h2eq, hr]
      rfl
    exact ⟨none, extract_length_noclose h2n⟩
  | some j =>
    have hkl : k < pre.length := findIdx_lt_of_some hk
    have h2s : List.findIdx? (fun c => c == ')') (pre ++ rest) = some (j + pre.length) := by
      rw [h2eq, hr]
      rfl
    exact ⟨_, extract_length_ok h1 h2s (by omega)⟩

/-- Claim C6 (amended): the fixed-length character rule requires an opening
parenthesis: for every raw string whose trimmed lower-cased form does not end
in `"[]"` and begins with `"char("` or `"character("`, `parse_data_type`
returns `Char(length)` with `length` extracted by `extract_length` (the first
parenthesized comma-delimited token when it parses as a number, `None`
otherwise, never panicking here); bare `"char"` is NOT matched by this rule
(see the counterexample: it falls through to the `Enum` fallback). -/
theorem c6_amended (s : List Char)
    (hpre : (str "char(").isPrefixOf (rsTrim (s.map Char.toLower)) = true
      ∨ (str "character(").isPrefixOf (rsTrim (s.map Char.toLower)) = true)
    (hnarr : (str "[]").isSuffixOf (rsTrim (s.map Char.toLower)) = false) :
    ∃ l : Option Nat,
      extract_length (rsTrim (s.map Char.toLower)) = Except.ok l
        ∧ parse_data_type s = Except.ok (DataType.Char l) := by
  have hv1 : (str "character varying").isPrefixOf (rsTrim (s.map Char.toLower)) = false := by
    cases hvb : (str "character varying").isPrefixOf (rsTrim (s.map Char.toLower)) with
    | false => rfl
    | true =>
      rcases hpre with h | h
      · exact absurd (prefix_trans_short hvb h (by decide)) (by decide)
      · exact absurd (prefix_trans_short hvb h (by decide)) (by decide)
  have hv2 : (str "varchar").isPrefixOf (rsTrim (s.map Char.toLower)) = false := by
    cases hvb : (str "varchar").isPrefixOf (rsTrim (s.map Char.toLower)) with
    | false => rfl
    | true =>
      rcases hpre with h | h
      · exact absurd (prefix_trans_short hvb h (by decide)) (by decide)
      · exact absurd (prefix_trans_short h hvb (by decide)) (by decide)
  have hchar : ((str "character(").isPrefixOf (rsTrim (s.map Char.toLower))
      || (str "char(").isPrefixOf (rsTrim (s.map Char.toLower))) = true := by
    rcases hpre with h | h <;> simp [h]
  obtain ⟨l, hl⟩ : ∃ l, extract_length (rsTrim (s.map Char.toLower)) = Except.ok l := by
    rcases hpre with h | h
    · exact extract_length_total 4 h (by decide) (by decide)
    · exact extract_length_total 9 h (by decide) (by decide)
  refine ⟨l, hl, ?_⟩
  rw [parse_data_type_eq, if_neg (by simp [hnarr])]
  unfold parseBase
  rw [if_neg (by simp [hv1, hv2]), if_pos hchar, hl]
  rfl

/-- Claim C3 (amended): a raw string matched by no parsing rule maps to
`Enum` of the original spelling, but an unmatched element type inside `"[]"`
array suffixes is recorded in its trimmed lower-cased spelling, because the
array rule recurses on the trimmed lower-cased remainder. -/
theorem c3_amended :
    (∀ s : List Char, noRuleMatches (rsTrim (s.map Char.toLower)) = true →
      parse_data_type s = Except.ok (DataType.Enum s))
    ∧ parse_data_type (str "MyEnum[][]")
        = Except.ok (DataType.Array (DataType.Array (DataType.Enum (str "myenum")))) := by
  constructor
  · intro s hnm
    unfold noRuleMatches at hnm
    simp only [Bool.and_eq_true, Bool.not_eq_true'] at hnm
    obtain ⟨⟨⟨⟨⟨⟨⟨⟨⟨⟨h1, h2⟩, h3⟩, h4⟩, h5⟩, h6⟩, h7⟩, h8⟩, h9⟩, h10⟩, h11⟩ := hnm
    rw [parse_data_type_eq, if_neg (by simp [h1])]
    unfold parseBase
    rw [if_neg (by simp [h2, h3]), if_neg (by simp [h4, h5]), if_neg (by simp [h6, h7]),
      if_neg (by simp [h8]), if_neg (by simp [h9, h10]),
      Option.isNone_iff_eq_none.mp h11]
  · decide

/-- Claim C3 counterexample: `"MyEnum[]"` parses to
`Array(Enum("myenum"))`, not `Array(Enum("MyEnum"))`: the original spelling
is lost inside an array suffix. -/
theorem c3_counterexample :
    parse_data_type (str "MyEnum[]")
        = Except.ok (DataType.Array (DataType.Enum (str "myenum")))
    ∧ DataType.Array (DataType.Enum (str "myenum"))
        ≠ DataType.Array (DataType.Enum (str "MyEnum")) :=
  ⟨by decide, by decide⟩

/-- Claim C6 counterexample: bare `"char"` parses to `Enum("char")`, not
`Char(None)` as the claim states, because the rule's prefixes are
`"char("`/`"character("`, which require a parenthesis. -/
theorem c6_counterexample :
    parse_data_type (str "char") = Except.ok (DataType.Enum (str "char"))
    ∧ (Except.ok (DataType.Enum (str "char")) : Except Unit DataType)
        ≠ Except.ok (DataType.Char none) :=
  ⟨by decide, by decide⟩

/-- Claim C7: for a canonical spelling `s` (already trimmed and lower-cased)
that parses to `d`, appending `n` `"[]"` suffixes parses to `Array` nested
exactly `n` deep around `d`. -/
theorem c7_nested_arrays (s : List Char) (d : DataType)
    (hl : s.map Char.toLower = s) (ht : rsTrim s = s)
    (hp : parse_data_type s = Except.ok d) (n : Nat) (_hn : 1 ≤ n) :
    parse_data_type (s ++ arrSuffix n) = Except.ok (nestArray n d) :=
  parse_data_type_arr_general s d hl ht hp n

/-- Witness for C7 at `s = "integer"`, `n = 2`: `"integer[][]"` parses to
`Array(Array(Integer))`. -/
theorem c7_witness :
    ((str "integer").map Char.toLower = str "integer"
      ∧ rsTrim (str "integer") = str "integer"
      ∧ parse_data_type (str "integer") = Except.ok DataType.Integer
      ∧ 1 ≤ 2
      ∧ str "integer" ++ arrSuffix 2 = str "integer[][]")
    ∧ parse_data_type (str "integer" ++ arrSuffix 2)
        = Except.ok (nestArray 2 DataType.Integer) :=
  ⟨⟨by decide, by decide, by decide, by decide, by decide⟩,
    c7_nested_arrays (str "integer") DataType.Integer (by decide) (by decide) (by decide) 2
      (by decide)⟩

/-- Witness for the amended C6 at `"char(5)"`. -/
theorem c6_witness :
    (((str "char(").isPrefixOf (rsTrim ((str "char(5)").map Char.toLower)) = true
        ∨ ((str "character(").isPrefixOf (rsTrim ((str "char(5)").map Char.toLower)) = true))
      ∧ (str "[]").isSuffixOf (rsTrim ((str "char(5)").map Char.toLower)) = false)
    ∧ ∃ l : Option Nat,
        extract_length (rsTrim ((str "char(5)").map Char.toLower)) = Except.ok l
          ∧ parse_data_type (str "char(5)") = Except.ok (DataType.Char l) :=
  ⟨⟨Or.inl (by decide), by decide⟩,
    c6_amended (str "char(5)") (Or.inl (by decide)) (by decide)⟩

/-- Witness for the amended C3 at the bare unmatched string `"my_type"`. -/
theorem c3_witness :
    noRuleMatches (rsTrim ((str "my_type").map Char.toLower)) = true
      ∧ parse_data_type (str "my_type") = Except.ok (DataType.Enum (str "my_type")) :=
  ⟨by decide, c3_amended.1 (str "my_type") (by decide)⟩

/-- Witness for C5 at the `users` fixture. -/
theorem c5_witness :
    (usersTable.columns.map Column.name).Nodup
      ∧ (usersTable.has_auto_generated_pk = true ↔
          ∃ name ∈ usersTable.primary_key, ∃ c ∈ usersTable.columns,
            c.name = name ∧ c.is_auto_generated = true) :=
  ⟨by decide, (c5_auto_pk usersTable (by decide)).1⟩

/-- Witness for C10 at the segment list `["api", "KEY"]`. -/
theorem c10_witness :
    ([ str "api", str "KEY" ] ≠ ([] : List (List Char))
      ∧ (∀ w ∈ [ str "api", str "KEY" ], '_' ∉ w))
    ∧ to_pascal_case ([ '_' ].intercalate [ str "api", str "KEY" ])
        = ([ str "api", str "KEY" ].map
            (fun w => (w.take 1).map Char.toUpper ++ w.drop 1)).flatten :=
  ⟨⟨by decide, by decide⟩,
    c10_pascal.1 [ str "api", str "KEY" ] (by decide) (by decide)⟩

/-- Claim C2 counterexample: in Flat mode with output path `"models.txt"`,
the single file is written at `"models.py"` — the unrelated `.txt` extension
is replaced, not appended to (the claim would require `"models.txt.py"`). -/
theorem c2_counterexample :
    generate okEnv okFs sampleSchema cfgFlatTxt
        = Except.ok [ (str "models.py", str "code") ]
    ∧ str "models.py" ≠ str "models.txt.py" :=
  ⟨rfl, by decide⟩

/-- Claim C2 (amended): in Flat mode `generate` writes exactly one file, at
`final_path`; a path with no extension gets `".py"` appended, a path already
ending in `.py` is kept, but an unrelated extension is replaced by `py`
(`Path::with_extension`), not appended to. -/
theorem c2_flat_single_write :
    (∀ (env : MiniJinjaEnv) (fs : Fs) (schema : Schema) (config : CodeGenConfig),
      config.output_mode = OutputMode.Flat →
      ∀ ws, generate env fs schema config = Except.ok ws →
        ∃ code, ws = [ (final_path config.output_path, code) ])
    ∧ (∀ p : List Char, pathExtension p = none → final_path p = p ++ str ".py")
    ∧ (∀ p : List Char, pathExtension p = some (str "py") → final_path p = p)
    ∧ final_path (str "models.txt") = str "models.py" := by
  refine ⟨?_, ?_, ?_, by decide⟩
  · intro env fs schema config hmode ws hgen
    simp only [generate, hmode] at hgen
    unfold generate_flat at hgen
    repeat'
      first
        | split at hgen
        | dsimp only at hgen
    all_goals
      first
        | exact ⟨_, ((Except.ok.injEq _ _).mp hgen).symm⟩
        | exact absurd hgen (by simp)
  · intro p hext
    unfold final_path
    rw [if_neg (by simp [hext])]
    unfold withExtension fileStem
    unfold pathExtension at hext
    cases hidx : lastDotIdx p with
    | none =>
      show p ++ ['.'] ++ str "py" = p ++ str ".py"
      rw [List.append_assoc]
      rfl
    | some i =>
      by_cases hi : i = 0
      · subst hi
        show p ++ ['.'] ++ str "py" = p ++ str ".py"
        rw [List.append_assoc]
        rfl
      · rw [hidx] at hext
        simp [hi] at hext
  · intro p hext
    unfold final_path
    rw [if_pos (by simp [hext])]

/-- Witness for the amended C2 at the `"models.txt"` flat configuration. -/
theorem c2_witness :
    (cfgFlatTxt.output_mode = OutputMode.Flat
      ∧ generate okEnv okFs sampleSchema cfgFlatTxt
          = Except.ok [ (str "models.py", str "code") ])
    ∧ ∃ code, [ ((str "models.py" : List Char), (str "code" : List Char)) ]
        = [ (final_path cfgFlatTxt.output_path, code) ] :=
  ⟨⟨rfl, rfl⟩, c2_flat_single_write.1 okEnv okFs sampleSchema cfgFlatTxt rfl _ rfl⟩

/-- Every `render_enums` failure is a `CodeGen` error naming `"enums"`. -/
theorem render_enums_error {env : MiniJinjaEnv} {es : List EnumType} {e : SqliftError}
    (h : render_enums env es = Except.error e) :
    ∃ m, e = SqliftError.CodeGen (str "enums") m := by
  unfold render_enums at h
  repeat'
    first
      | split at h
      | dsimp only at h
  all_goals
    first
      | exact ⟨_, ((Except.error.injEq _ _).mp h).symm⟩
      | simp at h

/-- Every `render_table` failure is a `CodeGen` error naming the table. -/
theorem render_table_error {env : MiniJinjaEnv} {table : Table} {schema : Schema}
    {config : CodeGenConfig} {e : SqliftError}
    (h : render_table env table schema config = Except.error e) :
    ∃ m, e = SqliftError.CodeGen table.name m := by
  unfold render_table at h
  repeat'
    first
      | split at h
      | dsimp only at h
  all_goals
    first
      | exact ⟨_, ((Except.error.injEq _ _).mp h).symm⟩
      | simp_all [build_table_context]

/-- `build_table_context` never fails, so collecting the per-table contexts
(`collect::<Result<_, _>>()`) always succeeds. -/
theorem mapM_build_ok (schema : Schema) : ∀ ts : List Table,
    ts.mapM (fun t => build_table_context t schema)
      = Except.ok (ts.map (fun t => build_table_ctx t schema)) := by
  intro ts
  induction ts with
  | nil => rfl
  | cons t rest ih =>
    rw [List.mapM_cons, ih]
    rfl

/-- Every `render_flat` failure is a `CodeGen` error naming `"flat"`. -/
theorem render_flat_error {env : MiniJinjaEnv} {schema : Schema}
    {config : CodeGenConfig} {e : SqliftError}
    (h : render_flat env schema config = Except.error e) :
    ∃ m, e = SqliftError.CodeGen (str "flat") m := by
  unfold render_flat at h
  repeat'
    first
      | split at h
      | dsimp only at h
  all_goals
    first
      | exact ⟨_, ((Except.error.injEq _ _).mp h).symm⟩
      | (rename_i heq
         rw [mapM_build_ok schema schema.tables] at heq
         exact absurd heq (by simp))
      | simp at h

/-- Every `render_init` failure is a `CodeGen` error naming `"__init__"`. -/
theorem render_init_error {env : MiniJinjaEnv} {schema : Schema} {e : SqliftError}
    (h : render_init env schema = Except.error e) :
    ∃ m, e = SqliftError.CodeGen (str "__init__") m := by
  unfold render_init at h
  repeat'
    first
      | split at h
      | dsimp only at h
  all_goals
    first
      | exact ⟨_, ((Except.error.injEq _ _).mp h).symm⟩
      | simp at h

/-- Every failure of the per-table loop is either an io `Output` error or a
`CodeGen` error naming one of the processed tables. -/
theorem gen_table_files_error {env : MiniJinjaEnv} {fs : Fs} {schema : Schema}
    {config : CodeGenConfig} {dir : List Char} :
    ∀ (ts : List Table) (e : SqliftError),
    gen_table_files env fs schema config dir ts = Except.error e →
    (∃ io, e = SqliftError.Output io)
      ∨ ∃ a m, e = SqliftError.CodeGen a m ∧ a ∈ ts.map Table.name := by
  intro ts
  induction ts with
  | nil =>
    intro e h
    exact absurd h (by simp [gen_table_files])
  | cons t rest ih =>
    intro e h
    unfold gen_table_files at h
    split at h
    · rename_i heq
      have he : _ = e := (Except.error.injEq _ _).mp h
      obtain ⟨m, hm⟩ := render_table_error heq
      rw [he] at hm
      exact Or.inr ⟨t.name, m, hm, by simp⟩
    · dsimp only at h
      split at h
      · exact Or.inl ⟨_, ((Except.error.injEq _ _).mp h).symm⟩
      · split at h
        · rename_i heq
          have he : _ = e := (Except.error.injEq _ _).mp h
          rcases ih _ heq with ⟨io, hio⟩ | ⟨a, m, hm, ha⟩
          · rw [he] at hio
            exact Or.inl ⟨io, hio⟩
          · rw [he] at hm
            exact Or.inr ⟨a, m, hm, by simp [ha]⟩
        · exact absurd h (by simp)

/-- Claim C8 (amended): every `generate` failure is either a file-system
failure surfaced as `Output` (wrapping only the io error, naming no
artifact), or a template-lookup/render failure surfaced as a `CodeGen` error
naming the specific artifact (`"enums"`, a table name, `"__init__"`, or
`"flat"`); the first failure in processing order aborts the run. -/
theorem c8_error_classification (env : MiniJinjaEnv) (fs : Fs) (schema : Schema)
    (config : CodeGenConfig) (e : SqliftError)
    (h : generate env fs schema config = Except.error e) :
    (∃ io, e = SqliftError.Output io)
    ∨ (∃ a m, e = SqliftError.CodeGen a m
        ∧ (a = str "enums" ∨ a ∈ schema.tables.map Table.name
            ∨ a = str "__init__" ∨ a = str "flat")) := by
  unfold generate at h
  split at h
  · unfold generate_library at h
    repeat'
      first
        | split at h
        | dsimp only at h
    all_goals try rw [Except.error.injEq] at h
    all_goals
      first
        | exact Or.inl ⟨_, h.symm⟩
        | (obtain ⟨m, hm⟩ := render_enums_error (by assumption)
           rw [h] at hm
           exact Or.inr ⟨_, m, hm, by simp⟩)
        | (rcases gen_table_files_error _ _ (by assumption) with ⟨io, hio⟩ | ⟨a, m, hm, ha⟩
           · rw [h] at hio
             exact Or.inl ⟨io, hio⟩
           · rw [h] at hm
             exact Or.inr ⟨a, m, hm, by simp [ha]⟩)
        | (obtain ⟨m, hm⟩ := render_init_error (by assumption)
           rw [h] at hm
           exact Or.inr ⟨_, m, hm, by simp⟩)
        | (rename_i heq
           split at heq
           · rw [Except.error.injEq] at heq
             exact Or.inl ⟨_, h.symm.trans heq.symm⟩
           · simp at heq)
        | simp at h
  · unfold generate_flat at h
    repeat'
      first
        | split at h
        | dsimp only at h
    all_goals try rw [Except.error.injEq] at h
    all_goals
      first
        | exact Or.inl ⟨_, h.symm⟩
        | (obtain ⟨m, hm⟩ := render_flat_error (by assumption)
           rw [h] at hm
           exact Or.inr ⟨_, m, hm, by simp⟩)
        | simp at h

/-- Claim C8 counterexample: when writing the table file fails with an io
error, the surfaced error is `Output("disk full")`, which is not a
`CodeGen` error and names no artifact — refuting the claim that every
failure during generate is a `CodeGenError` naming the artifact. -/
theorem c8_counterexample :
    generate okEnv failWriteFs sampleSchema cfgLib
        = Except.error (SqliftError.Output (str "disk full"))
    ∧ ∀ a m, SqliftError.Output (str "disk full") ≠ SqliftError.CodeGen a m :=
  ⟨rfl, fun _ _ h => SqliftError.noConfusion h⟩

/-- Witness for the amended C8: a render failure on the `flat` template
surfaces as `CodeGen("flat", _)`, which the classification covers. -/
theorem c8_witness :
    (generate flatFailEnv okFs sampleSchema cfgFlatTxt
        = Except.error (SqliftError.CodeGen (str "flat") (str "Render error: boom")))
    ∧ ((∃ io, SqliftError.CodeGen (str "flat") (str "Render error: boom")
          = SqliftError.Output io)
      ∨ (∃ a m, SqliftError.CodeGen (str "flat") (str "Render error: boom")
            = SqliftError.CodeGen a m
          ∧ (a = str "enums" ∨ a ∈ sampleSchema.tables.map Table.name
              ∨ a = str "__init__" ∨ a = str "flat"))) :=
  ⟨rfl, c8_error_classification flatFailEnv okFs sampleSchema cfgFlatTxt _ rfl⟩
